import Mathlib

/-!
Shallow embedding of `main.py` of the heart_effect repository.

The program renders an animated heart: a root point cloud is generated from
an implicit heart curve, a working copy is deformed every frame by a
time-driven heartbeat scale factor, and a pool of particles falls under
gravity, recycled when leaving the screen.

Modelling conventions:
  * Python floats that only ever hold exact small arithmetic (particle
    physics with GRAVITY = 0.1, delays) are modelled as rationals so that
    the definitions stay executable; the wall-clock trigonometry of the
    heartbeat deformer is modelled over the reals.
  * Python `random.*` calls are modelled as oracle parameters (functions
    supplying the drawn values / chosen indices), so every definition is a
    pure function of its inputs and its randomness stream.
  * Python's `int(...)` truncates toward zero; it is embedded as `pyInt`.
  * In-place list mutation is embedded as functions returning the new list.
-/

namespace HeartEffect

/-- Canvas width, `WIDTH = 600` in main.py. -/
def WIDTH : ℤ := 600

/-- Canvas height, `HEIGHT = 600` in main.py. -/
def HEIGHT : ℤ := 600

/-- Gravity force per frame, `GRAVITY = 0.1`. -/
def GRAVITY : ℚ := 1/10

/-- Maximum initial delay before falling, `MAX_DELAY = 2.5`. -/
def MAX_DELAY : ℚ := 5/2

/-- Target particle pool size, `PARTICLE_COUNT = 1000`. -/
def PARTICLE_COUNT : ℕ := 1000

/-- Near gradient color, `PINK = (219, 112, 147)`. -/
def PINK : ℤ × ℤ × ℤ := (219, 112, 147)

/-- Far gradient color, `SOFTER_PINK = (255, 204, 213)`. -/
def SOFTER_PINK : ℤ × ℤ × ℤ := (255, 204, 213)

/-- The two shape scale constants, `scale = [150, 120]`. -/
def scale : List ℚ := [150, 120]

/-- Horizontal canvas center, `center_x = WIDTH // 2`. -/
def center_x : ℤ := WIDTH / 2

/-- Vertical canvas center, `center_y = HEIGHT // 2`. -/
def center_y : ℤ := HEIGHT / 2

/-- Python's `int(...)` on a real value: truncation toward zero. -/
noncomputable def pyInt (r : ℝ) : ℤ := if 0 ≤ r then ⌊r⌋ else ⌈r⌉

/-- Class `Pos` of main.py: a screen position `(x, y)`, the logical offset
from the shape center `(real_x, real_y)`, and an RGB color. -/
structure Pos where
  x : ℤ
  y : ℤ
  real_x : ℤ
  real_y : ℤ
  color : ℤ × ℤ × ℤ
deriving DecidableEq

instance : Inhabited Pos := ⟨⟨0, 0, 0, 0, (0, 0, 0)⟩⟩

/-- Class `Particle` of main.py: a falling particle.  `y` (and the derived
velocity) become non-integral over time, so they are rationals. -/
structure Particle where
  x : ℚ
  y : ℚ
  real_x : ℤ
  real_y : ℤ
  color : ℤ × ℤ × ℤ
  start_time : ℚ
  velocity : ℚ
  active : Bool
deriving DecidableEq

instance : Inhabited Particle := ⟨⟨0, 0, 0, 0, (0, 0, 0), 0, 0, false⟩⟩

/-- `Particle.__init__`: `start_time = time.time() + delay` (the current
wall-clock time is the `now` argument), `velocity = 0`, `active = False`. -/
def Particle.init (x y : ℚ) (color : ℤ × ℤ × ℤ) (real_x real_y : ℤ)
    (now delay : ℚ) : Particle :=
  { x := x, y := y, real_x := real_x, real_y := real_y, color := color,
    start_time := now + delay, velocity := 0, active := false }

/-- `heart_equation(x, y, scale_type)`: with `s = scale[scale_type]`,
returns `((x/s)^2 + (y/s)^2 - 1)^3 - (x/s)^2 * (y/s)^3 <= 0`. -/
def heart_equation (x y : ℚ) (scale_type : ℕ) : Bool :=
  let xs := x / scale.getD scale_type 0
  let ys := y / scale.getD scale_type 0
  decide ((xs ^ 2 + ys ^ 2 - 1) ^ 3 - xs ^ 2 * ys ^ 3 ≤ 0)

/-- `max_distance` of `get_fade_color`: distance from the center to a
canvas corner, `sqrt((WIDTH // 2)^2 + (HEIGHT // 2)^2)`. -/
noncomputable def max_distance : ℝ :=
  Real.sqrt (((WIDTH / 2 : ℤ) : ℝ) ^ 2 + ((HEIGHT / 2 : ℤ) : ℝ) ^ 2)

/-- `get_fade_color(real_x, real_y)`: fade factor `max(0, 1 - d/max_d)`
with `d` the distance of the offset from the center, then per-channel
interpolation `int(near * fade + far * (1 - fade))`. -/
noncomputable def get_fade_color (real_x real_y : ℤ) : ℤ × ℤ × ℤ :=
  let distance := Real.sqrt ((real_x : ℝ) ^ 2 + (real_y : ℝ) ^ 2)
  let fade_factor := max 0 (1 - distance / max_distance)
  (pyInt ((PINK.1 : ℝ) * fade_factor + (SOFTER_PINK.1 : ℝ) * (1 - fade_factor)),
   pyInt ((PINK.2.1 : ℝ) * fade_factor + (SOFTER_PINK.2.1 : ℝ) * (1 - fade_factor)),
   pyInt ((PINK.2.2 : ℝ) * fade_factor + (SOFTER_PINK.2.2 : ℝ) * (1 - fade_factor)))

/-- The heartbeat scale factor of `heart_beat` at wall-clock time `tm`:
`t = tm * 2`; `1 + 0.06 * sin(t)^3` while `sin(t) > 0`, else
`1 + 0.06 * sin(t)`. -/
noncomputable def scale_factor (tm : ℝ) : ℝ :=
  if Real.sin (tm * 2) > 0 then 1 + 0.06 * Real.sin (tm * 2) ^ 3
  else 1 + 0.06 * Real.sin (tm * 2)

/-- The body of the `heart_beat` loop for index `i`: the working point `p`
gets logical offsets recomputed from the root point `q` scaled by `s` plus
jitter (`random.randint(-3, 3)` modelled by the oracle values `jx`, `jy`),
and screen coordinates recomputed from the center. Only `real_x`, `real_y`,
`x`, `y` are written; `color` stays that of the working point. -/
noncomputable def heart_beat_point (p q : Pos) (s : ℝ) (jx jy : ℤ) : Pos :=
  let rx := pyInt ((q.real_x : ℝ) * s) + jx
  let ry := pyInt ((q.real_y : ℝ) * s) + jy
  { x := center_x + rx, y := center_y - ry, real_x := rx, real_y := ry,
    color := p.color }

/-- `heart_beat(heart_data, original_heart_data, frame)`: for every index of
the working cloud, rewrite the point from the root point at the same index
using the current scale factor.  `jx i`, `jy i` are the two
`random.randint(-3, 3)` draws of iteration `i`. -/
noncomputable def heart_beat (heart_data original_heart_data : List Pos)
    (tm : ℝ) (jx jy : ℕ → ℤ) : List Pos :=
  (List.range heart_data.length).map fun i =>
    heart_beat_point (heart_data.getD i default)
      (original_heart_data.getD i default) (scale_factor tm) (jx i) (jy i)

/-- The one-time normalization pass over `heart_data_root` (main.py lines
201-203): `p.real_x = p.x - center_x; p.real_y = center_y - p.y`. -/
def normalize_root (l : List Pos) : List Pos :=
  l.map fun p => { p with real_x := p.x - center_x, real_y := center_y - p.y }

/-- One particle of the `update_falling_particles` pass.  `none` means the
particle expired (`p.y > HEIGHT`) and is removed; `some` is the particle as
it stays in the pool.  An inactive particle whose start time has not come is
kept unchanged (`continue`); otherwise it is (now) active, gains `GRAVITY`
velocity and falls by its velocity. -/
def step_particle (now : ℚ) (p : Particle) : Option Particle :=
  if p.active = false ∧ now < p.start_time then some p
  else
    let v := p.velocity + GRAVITY
    let y := p.y + v
    if (HEIGHT : ℚ) < y then none
    else some { p with active := true, velocity := v, y := y }

/-- `update_falling_particles(particles)`: every particle is stepped; each
expired one is removed and `random.choice(heart_data_root)` (the root cloud
passed as `root`, chosen index given by the oracle `pick`) is recorded; at
the end one replacement `Particle` per expiry is appended, with
`random.uniform(0, 1)` delay given by the oracle `delay`. -/
def update_falling_particles (ps : List Particle) (now : ℚ) (root : List Pos)
    (pick : ℕ → ℕ) (delay : ℕ → ℚ) : List Particle :=
  let kept := ps.filterMap (step_particle now)
  let expired := ps.length - kept.length
  kept ++ (List.range expired).map fun k =>
    let q := root.getD (pick k) default
    Particle.init (q.x : ℚ) (q.y : ℚ) q.color q.real_x q.real_y now (delay k)

/-- `generate_falling_particles(heart_data, count)`: sort the cloud by
`real_y` ascending, keep the first 5000, and build `count` particles from
the points sampled by the oracle `sample`, each with a
`random.uniform(0, MAX_DELAY)` delay given by the oracle `delay`. -/
def generate_falling_particles (heart_data : List Pos) (count : ℕ)
    (sample : ℕ → ℕ) (delay : ℕ → ℚ) (now : ℚ) : List Particle :=
  let sorted_heart_data := heart_data.mergeSort fun a b => a.real_y ≤ b.real_y
  let bottom_particles := sorted_heart_data.take 5000
  (List.range count).map fun k =>
    let q := bottom_particles.getD (sample k) default
    Particle.init (q.x : ℚ) (q.y : ℚ) q.color q.real_x q.real_y now (delay k)

/-- The top-up loop of the main loop:
`while len(falling_particles) < PARTICLE_COUNT: falling_particles.extend(...)`.
`batches b` is the list produced by the `b`-th call of
`generate_falling_particles(heart_data, 5)`; `fuel` bounds the number of
iterations (the Python loop terminates because every batch has 5 points). -/
def top_up : ℕ → List Particle → (ℕ → List Particle) → List Particle
  | 0, ps, _ => ps
  | fuel + 1, ps, batches =>
      if ps.length < PARTICLE_COUNT then
        top_up fuel (ps ++ batches 0) (fun b => batches (b + 1))
      else ps

/-- The randomness and wall-clock inputs one main-loop frame consumes in its
particle phase: the time read by `update_falling_particles`, its
`random.choice` indices and `random.uniform(0, 1)` delays, and for each
top-up batch the `random.sample` indices and `random.uniform(0, MAX_DELAY)`
delays of `generate_falling_particles(heart_data, 5)` (whose source cloud is
the current working copy `working`).  `fuel` bounds the top-up iterations. -/
structure FrameOracle where
  now : ℚ
  pick : ℕ → ℕ
  delay : ℕ → ℚ
  fuel : ℕ
  working : List Pos
  sample : ℕ → ℕ → ℕ
  bdelay : ℕ → ℕ → ℚ

/-- The particle phase of one main-loop frame:
`update_falling_particles(falling_particles)` followed by
`while len(falling_particles) < PARTICLE_COUNT: ...extend(generate_falling_particles(heart_data, 5))`. -/
def frame_particles (root : List Pos) (o : FrameOracle)
    (ps : List Particle) : List Particle :=
  top_up o.fuel (update_falling_particles ps o.now root o.pick o.delay)
    fun b => generate_falling_particles o.working 5 (o.sample b) (o.bdelay b)
      o.now

/-- `n` frames of the main loop, restricted to the particle pool (the
heart-beat phase does not touch the pool). -/
def run_frames (root : List Pos) :
    ℕ → (ℕ → FrameOracle) → List Particle → List Particle
  | 0, _, ps => ps
  | n + 1, os, ps =>
      run_frames root n (fun k => os (k + 1)) (frame_particles root (os 0) ps)

/-- The coordinate invariant of the data model: `screen_x = center_x + shape_x`
and `screen_y = center_y - shape_y`. -/
def pos_invariant (p : Pos) : Prop :=
  p.x = center_x + p.real_x ∧ p.y = center_y - p.real_y

/-! ### Helper lemmas -/

lemma pyInt_intCast (n : ℤ) : pyInt (n : ℝ) = n := by
  unfold pyInt
  split <;> simp

lemma heart_beat_getD (hd orig : List Pos) (tm : ℝ) (jx jy : ℕ → ℤ)
    (i : ℕ) (h : i < hd.length) :
    (heart_beat hd orig tm jx jy).getD i default =
      heart_beat_point (hd.getD i default) (orig.getD i default)
        (scale_factor tm) (jx i) (jy i) := by
  unfold heart_beat
  rw [List.getD_eq_getElem?_getD]
  simp [List.getElem?_map, List.getElem?_range, h]

lemma sin_pi_div_four_mul_two : Real.sin (Real.pi / 4 * 2) = 1 := by
  have h : Real.pi / 4 * 2 = Real.pi / 2 := by ring
  rw [h, Real.sin_pi_div_two]

lemma scale_factor_pi_div_four : scale_factor (Real.pi / 4) = 1.06 := by
  unfold scale_factor
  rw [sin_pi_div_four_mul_two]
  norm_num

/-- Cubing a positive sine keeps the factor in `(1, 1 + 0.06]`, a negative
sine keeps it in `[1 - 0.06, 1]`. -/
lemma scale_factor_mem (tm : ℝ) :
    1 - 0.06 ≤ scale_factor tm ∧ scale_factor tm ≤ 1 + 0.06 := by
  unfold scale_factor
  have h1 : Real.sin (tm * 2) ≤ 1 := Real.sin_le_one _
  have h2 : -1 ≤ Real.sin (tm * 2) := Real.neg_one_le_sin _
  split
  · rename_i h
    have h3 : Real.sin (tm * 2) ^ 3 ≤ 1 := pow_le_one₀ h.le h1
    have h4 : 0 < Real.sin (tm * 2) ^ 3 := pow_pos h 3
    constructor <;> nlinarith
  · rename_i h
    push_neg at h
    constructor <;> nlinarith

/-- The key outer bound for the heart curve: once the scaled radius squared
reaches 9, the cubed term dominates the mixed term. -/
lemma heart_poly_dominates (a b : ℚ) (h : 9 ≤ a ^ 2 + b ^ 2) :
    a ^ 2 * b ^ 3 < (a ^ 2 + b ^ 2 - 1) ^ 3 := by
  have hr0 : (0 : ℚ) ≤ a ^ 2 + b ^ 2 := by positivity
  have h8 : (8 : ℚ) ≤ a ^ 2 + b ^ 2 - 1 := by linarith
  have hpos : (0 : ℚ) < (a ^ 2 + b ^ 2 - 1) ^ 3 := by positivity
  rcases le_or_lt b 0 with hb | hb
  · have hb3 : b ^ 3 ≤ 0 := Odd.pow_nonpos ⟨1, by norm_num⟩ hb
    have : a ^ 2 * b ^ 3 ≤ 0 := mul_nonpos_of_nonneg_of_nonpos (sq_nonneg a) hb3
    linarith
  · have ha2 : a ^ 2 ≤ a ^ 2 + b ^ 2 := by nlinarith [sq_nonneg b]
    have hb2 : b ^ 2 ≤ a ^ 2 + b ^ 2 := by nlinarith [sq_nonneg a]
    have h4 : (a ^ 2) ^ 2 ≤ (a ^ 2 + b ^ 2) ^ 2 :=
      pow_le_pow_left₀ (sq_nonneg a) ha2 2
    have h6 : (b ^ 2) ^ 3 ≤ (a ^ 2 + b ^ 2) ^ 3 :=
      pow_le_pow_left₀ (sq_nonneg b) hb2 3
    have key : (a ^ 2 * b ^ 3) ^ 2 ≤ (a ^ 2 + b ^ 2) ^ 5 := by
      have hmul : (a ^ 2) ^ 2 * (b ^ 2) ^ 3 ≤
          (a ^ 2 + b ^ 2) ^ 2 * (a ^ 2 + b ^ 2) ^ 3 := by
        apply mul_le_mul h4 h6 (by positivity) (by positivity)
      calc (a ^ 2 * b ^ 3) ^ 2 = (a ^ 2) ^ 2 * (b ^ 2) ^ 3 := by ring
        _ ≤ (a ^ 2 + b ^ 2) ^ 2 * (a ^ 2 + b ^ 2) ^ 3 := hmul
        _ = (a ^ 2 + b ^ 2) ^ 5 := by ring
    have key2 : (a ^ 2 + b ^ 2) ^ 5 < ((a ^ 2 + b ^ 2 - 1) ^ 3) ^ 2 := by
      nlinarith [pow_pos (show (0:ℚ) < a ^ 2 + b ^ 2 by linarith) 5,
        sq_nonneg ((a ^ 2 + b ^ 2) ^ 2), sq_nonneg (a ^ 2 + b ^ 2 - 9),
        pow_pos (show (0:ℚ) < a ^ 2 + b ^ 2 by linarith) 3,
        pow_pos (show (0:ℚ) < a ^ 2 + b ^ 2 by linarith) 4]
    nlinarith [key, key2, hpos, sq_nonneg (a ^ 2 * b ^ 3)]

/-- The update pass never changes the pool size: each expired particle is
removed together with appending exactly one replacement. -/
lemma update_falling_particles_length (ps : List Particle) (now : ℚ)
    (root : List Pos) (pick : ℕ → ℕ) (delay : ℕ → ℚ) :
    (update_falling_particles ps now root pick delay).length = ps.length := by
  have hle : (ps.filterMap (step_particle now)).length ≤ ps.length :=
    List.length_filterMap_le _ _
  simp only [update_falling_particles, List.length_append, List.length_map,
    List.length_range]
  omega

/-- The top-up while loop does nothing once the pool has reached the
target. -/
lemma top_up_of_ge (fuel : ℕ) (ps : List Particle)
    (batches : ℕ → List Particle) (h : PARTICLE_COUNT ≤ ps.length) :
    top_up fuel ps batches = ps := by
  cases fuel with
  | zero => rfl
  | succ n =>
      unfold top_up
      rw [if_neg (by omega)]

/-- Each call of `generate_falling_particles` yields exactly `count`
particles (the batches of the top-up loop have 5 each). -/
lemma generate_falling_particles_length (heart_data : List Pos) (count : ℕ)
    (sample : ℕ → ℕ) (delay : ℕ → ℚ) (now : ℚ) :
    (generate_falling_particles heart_data count sample delay now).length =
      count := by
  simp [generate_falling_particles]

/-! ### Claim theorems -/

/-- C5: for every time `t` the heartbeat scale factor (`1 + 0.06 * sin(2t)^3`
when `sin(2t) > 0`, else `1 + 0.06 * sin(2t)`) lies within
`[1 - 0.06, 1 + 0.06]`, and it is periodic with period `pi`:
`scale_factor (t + pi) = scale_factor t`. -/
theorem scale_factor_bounded_and_periodic (t : ℝ) :
    (1 - 0.06 ≤ scale_factor t ∧ scale_factor t ≤ 1 + 0.06) ∧
      scale_factor (t + Real.pi) = scale_factor t := by
  refine ⟨scale_factor_mem t, ?_⟩
  unfold scale_factor
  have h : (t + Real.pi) * 2 = t * 2 + 2 * Real.pi := by ring
  rw [h, Real.sin_add_two_pi]

/-- C8: at a time `tm` with `sin(2 tm) = 0` exactly, the scale factor is `1`
and every working point's logical coordinates equal the corresponding root
point's logical coordinates plus the jitter term alone (the scaling step is
the identity on the integer root coordinates). -/
theorem heart_beat_identity_when_sin_zero (tm : ℝ) (h : Real.sin (tm * 2) = 0)
    (hd orig : List Pos) (jx jy : ℕ → ℤ) (i : ℕ) (hi : i < hd.length) :
    scale_factor tm = 1 ∧
      ((heart_beat hd orig tm jx jy).getD i default).real_x =
        (orig.getD i default).real_x + jx i ∧
      ((heart_beat hd orig tm jx jy).getD i default).real_y =
        (orig.getD i default).real_y + jy i := by
  have hs : scale_factor tm = 1 := by
    unfold scale_factor
    rw [h]
    norm_num
  refine ⟨hs, ?_, ?_⟩ <;>
  · rw [heart_beat_getD hd orig tm jx jy i hi, hs]
    simp [heart_beat_point, pyInt_intCast]

/-- Witness for C8 at `tm = 0` and a singleton cloud. -/
theorem heart_beat_identity_when_sin_zero_witness :
    scale_factor 0 = 1 ∧
      ((heart_beat [default] [default] 0 (fun _ => 0) (fun _ => 0)).getD 0
          default).real_x =
        (([default] : List Pos).getD 0 default).real_x + 0 ∧
      ((heart_beat [default] [default] 0 (fun _ => 0) (fun _ => 0)).getD 0
          default).real_y =
        (([default] : List Pos).getD 0 default).real_y + 0 :=
  heart_beat_identity_when_sin_zero 0 (by simp) [default] [default]
    (fun _ => 0) (fun _ => 0) 0 (by simp)

/-- C6: every point whose squared distance from the center is at least
`9 * s^2` (`s` the selected scale constant, i.e. distance at least three
times the scale) fails the heart equation: `heart_equation` returns false,
so points far outside the curve are excluded from the generated cloud. -/
theorem heart_equation_far_outside_false (scale_type : ℕ)
    (hst : scale_type < 2) (x y : ℚ)
    (h : 9 * scale.getD scale_type 0 ^ 2 ≤ x ^ 2 + y ^ 2) :
    heart_equation x y scale_type = false := by
  have hs : (0 : ℚ) < scale.getD scale_type 0 := by
    interval_cases scale_type <;> norm_num [scale]
  have h9 : 9 ≤ (x / scale.getD scale_type 0) ^ 2 +
      (y / scale.getD scale_type 0) ^ 2 := by
    rw [div_pow, div_pow, div_add_div_same, le_div_iff₀ (by positivity)]
    linarith
  have hd := heart_poly_dominates _ _ h9
  simp only [heart_equation, decide_eq_false_iff_not]
  push_neg
  linarith

/-- Witness for C6: the point `(1000, 0)` with the primary scale `150`. -/
theorem heart_equation_far_outside_false_witness :
    (0 : ℕ) < 2 ∧ 9 * scale.getD 0 0 ^ 2 ≤ (1000 : ℚ) ^ 2 + 0 ^ 2 ∧
      heart_equation 1000 0 0 = false :=
  ⟨by norm_num, by norm_num [scale],
    heart_equation_far_outside_false 0 (by norm_num) 1000 0
      (by norm_num [scale])⟩

/-- C3: every working point produced by a `heart_beat` call and every root
point after the one-time normalization pass satisfies the coordinate
invariant `screen_x = center_x + shape_x`, `screen_y = center_y - shape_y`. -/
theorem pos_invariant_established :
    (∀ (hd orig : List Pos) (tm : ℝ) (jx jy : ℕ → ℤ) (i : ℕ),
        i < hd.length →
        pos_invariant ((heart_beat hd orig tm jx jy).getD i default)) ∧
      ∀ l : List Pos, ∀ p ∈ normalize_root l, pos_invariant p := by
  constructor
  · intro hd orig tm jx jy i hi
    rw [heart_beat_getD hd orig tm jx jy i hi]
    exact ⟨rfl, rfl⟩
  · intro l p hp
    unfold normalize_root at hp
    obtain ⟨q, _, rfl⟩ := List.mem_map.mp hp
    refine ⟨?_, ?_⟩ <;> simp only [] <;> omega

/-- Witness for C3: one deformed point and one normalized point. -/
theorem pos_invariant_established_witness :
    pos_invariant ((heart_beat [default] [default] 0 (fun _ => 0)
        (fun _ => 0)).getD 0 default) ∧
      pos_invariant ⟨0, 0, -300, 300, (0, 0, 0)⟩ :=
  ⟨pos_invariant_established.1 [default] [default] 0 (fun _ => 0) (fun _ => 0)
      0 (by simp),
    pos_invariant_established.2 [default] _ (by decide)⟩

/-- C10: a `heart_beat` call only rewrites coordinates: the working cloud
keeps its length and every working point keeps its color (the root cloud,
passed read-only, appears only as an input of the function). -/
theorem heart_beat_only_moves_points (hd orig : List Pos) (tm : ℝ)
    (jx jy : ℕ → ℤ) :
    (heart_beat hd orig tm jx jy).length = hd.length ∧
      ∀ i : ℕ, i < hd.length →
        ((heart_beat hd orig tm jx jy).getD i default).color =
          (hd.getD i default).color := by
  constructor
  · simp [heart_beat]
  · intro i hi
    rw [heart_beat_getD hd orig tm jx jy i hi]
    rfl

/-- Witness for C10 on a singleton cloud. -/
theorem heart_beat_only_moves_points_witness :
    ((heart_beat [default] [default] 0 (fun _ => 0) (fun _ => 0)).getD 0
        default).color = (([default] : List Pos).getD 0 default).color :=
  (heart_beat_only_moves_points [default] [default] 0 (fun _ => 0)
    (fun _ => 0)).2 0 (by simp)

/-- The fade factor as §4.2 of the spec words it:
`clamp(1 - distance/max_distance, 0, 1)`. -/
noncomputable def spec_fade_factor (real_x real_y : ℤ) : ℝ :=
  min 1 (max 0 (1 - Real.sqrt ((real_x : ℝ) ^ 2 + (real_y : ℝ) ^ 2) /
    max_distance))

lemma spec_fade_factor_eq (x y : ℤ) :
    spec_fade_factor x y =
      max 0 (1 - Real.sqrt ((x : ℝ) ^ 2 + (y : ℝ) ^ 2) / max_distance) := by
  have hd0 : 0 ≤ Real.sqrt ((x : ℝ) ^ 2 + (y : ℝ) ^ 2) / max_distance :=
    div_nonneg (Real.sqrt_nonneg _) (Real.sqrt_nonneg _)
  exact min_eq_right (max_le (by norm_num) (by linarith))

lemma max_distance_pos : 0 < max_distance := by
  unfold max_distance
  rw [Real.sqrt_pos]
  norm_num [WIDTH, HEIGHT]

/-- C7: `get_fade_color` interpolates each channel with the clamped fade
factor `clamp(1 - distance/max_distance, 0, 1)` as the near-color weight; at
distance `0` it returns `PINK` exactly and at distance `max_distance` it
returns `SOFTER_PINK` exactly. -/
theorem get_fade_color_gradient :
    (∀ x y : ℤ, get_fade_color x y =
        (pyInt ((PINK.1 : ℝ) * spec_fade_factor x y +
            (SOFTER_PINK.1 : ℝ) * (1 - spec_fade_factor x y)),
         pyInt ((PINK.2.1 : ℝ) * spec_fade_factor x y +
            (SOFTER_PINK.2.1 : ℝ) * (1 - spec_fade_factor x y)),
         pyInt ((PINK.2.2 : ℝ) * spec_fade_factor x y +
            (SOFTER_PINK.2.2 : ℝ) * (1 - spec_fade_factor x y)))) ∧
      get_fade_color 0 0 = PINK ∧
      ∀ x y : ℤ, Real.sqrt ((x : ℝ) ^ 2 + (y : ℝ) ^ 2) = max_distance →
        get_fade_color x y = SOFTER_PINK := by
  refine ⟨?_, ?_, ?_⟩
  · intro x y
    rw [spec_fade_factor_eq x y]
    rfl
  · have h0 : Real.sqrt (((0 : ℤ) : ℝ) ^ 2 + ((0 : ℤ) : ℝ) ^ 2) = 0 := by
      norm_num
    unfold get_fade_color
    rw [h0]
    norm_num [pyInt, PINK, SOFTER_PINK]
  · intro x y hxy
    simp only [get_fade_color]
    rw [hxy, div_self max_distance_pos.ne']
    norm_num [pyInt, SOFTER_PINK]

/-- Witness for C7: the corner offset `(300, 300)` is at `max_distance`. -/
theorem get_fade_color_gradient_witness :
    get_fade_color 300 300 = SOFTER_PINK :=
  get_fade_color_gradient.2.2 300 300 (by
    unfold max_distance
    norm_num [WIDTH, HEIGHT])

/-- C9: a pool holding one active particle whose screen y already exceeds
the canvas height is updated to a pool of the same size (one element) whose
single particle is the freshly built replacement, with `velocity = 0` and
`active = false`. -/
theorem expired_particle_recycled (p : Particle) (now : ℚ) (root : List Pos)
    (pick : ℕ → ℕ) (delay : ℕ → ℚ) (hactive : p.active = true)
    (hy : (HEIGHT : ℚ) < p.y) (hv : 0 ≤ p.velocity) :
    ∃ q : Particle,
      update_falling_particles [p] now root pick delay = [q] ∧
        q.velocity = 0 ∧ q.active = false := by
  have hstep : step_particle now p = none := by
    simp only [step_particle, hactive]
    rw [if_neg (by simp)]
    rw [if_pos (by
      have : (0 : ℚ) < GRAVITY := by norm_num [GRAVITY]
      linarith)]
  have hkept : ([p].filterMap (step_particle now)) = [] := by
    simp [hstep]
  refine ⟨Particle.init ((root.getD (pick 0) default).x : ℚ)
      ((root.getD (pick 0) default).y : ℚ) (root.getD (pick 0) default).color
      (root.getD (pick 0) default).real_x (root.getD (pick 0) default).real_y
      now (delay 0), ?_, rfl, rfl⟩
  simp only [update_falling_particles, hkept]
  simp [List.range_succ]

/-- Witness for C9: an active particle at `y = HEIGHT + 1 = 601`. -/
theorem expired_particle_recycled_witness :
    ∃ q : Particle,
      update_falling_particles [⟨0, 601, 0, 0, (0, 0, 0), 0, 0, true⟩] 0 []
          (fun _ => 0) (fun _ => 0) = [q] ∧
        q.velocity = 0 ∧ q.active = false :=
  expired_particle_recycled ⟨0, 601, 0, 0, (0, 0, 0), 0, 0, true⟩ 0 []
    (fun _ => 0) (fun _ => 0) rfl (by norm_num [HEIGHT]) le_rfl

/-- C4: starting from a pool of the target size, after the update pass and
the top-up loop of every one of `n` frames the pool again has size exactly
`PARTICLE_COUNT`. -/
theorem pool_size_invariant (root : List Pos) (os : ℕ → FrameOracle)
    (ps : List Particle) (n : ℕ) (h : ps.length = PARTICLE_COUNT) :
    (run_frames root n os ps).length = PARTICLE_COUNT := by
  induction n generalizing os ps with
  | zero => exact h
  | succ n ih =>
      unfold run_frames
      apply ih
      unfold frame_particles
      rw [top_up_of_ge _ _ _ (by rw [update_falling_particles_length]; omega)]
      rw [update_falling_particles_length, h]

/-- Witness for C4: one frame on a pool of 1000 default particles. -/
theorem pool_size_invariant_witness :
    (run_frames [] 1
        (fun _ => ⟨0, fun _ => 0, fun _ => 0, 0, [], fun _ _ => 0,
          fun _ _ => 0⟩)
        (List.replicate 1000 default)).length = PARTICLE_COUNT :=
  pool_size_invariant []
    (fun _ => ⟨0, fun _ => 0, fun _ => 0, 0, [], fun _ _ => 0, fun _ _ => 0⟩)
    (List.replicate 1000 default) 1 (by rw [List.length_replicate]; rfl)

/-- C1 amended: the `k`-th replacement particle appended by an update pass
is built from the point of the ROOT cloud `heart_data_root` selected by the
`k`-th `random.choice` draw — not from the working cloud — with
`velocity = 0`, `active = false`, and `start_time = now + delay` for the
fresh `random.uniform(0, 1)` draw, so the start time lies in
`[now, now + 1]`. -/
theorem update_replacements_from_root (ps : List Particle) (now : ℚ)
    (root : List Pos) (pick : ℕ → ℕ) (delay : ℕ → ℚ) (k : ℕ)
    (hk : k < ps.length - (ps.filterMap (step_particle now)).length)
    (h0 : 0 ≤ delay k) (h1 : delay k ≤ 1) :
    (update_falling_particles ps now root pick delay).getD
        ((ps.filterMap (step_particle now)).length + k) default =
      Particle.init ((root.getD (pick k) default).x : ℚ)
        ((root.getD (pick k) default).y : ℚ)
        (root.getD (pick k) default).color
        (root.getD (pick k) default).real_x
        (root.getD (pick k) default).real_y now (delay k) ∧
      ((update_falling_particles ps now root pick delay).getD
          ((ps.filterMap (step_particle now)).length + k) default).velocity =
        0 ∧
      ((update_falling_particles ps now root pick delay).getD
          ((ps.filterMap (step_particle now)).length + k) default).active =
        false ∧
      now ≤ ((update_falling_particles ps now root pick delay).getD
          ((ps.filterMap (step_particle now)).length + k)
          default).start_time ∧
      ((update_falling_particles ps now root pick delay).getD
          ((ps.filterMap (step_particle now)).length + k)
          default).start_time ≤ now + 1 := by
  have hmain : (update_falling_particles ps now root pick delay).getD
      ((ps.filterMap (step_particle now)).length + k) default =
      Particle.init ((root.getD (pick k) default).x : ℚ)
        ((root.getD (pick k) default).y : ℚ)
        (root.getD (pick k) default).color
        (root.getD (pick k) default).real_x
        (root.getD (pick k) default).real_y now (delay k) := by
    simp only [update_falling_particles]
    rw [List.getD_eq_getElem?_getD,
      List.getElem?_append_right (Nat.le_add_right _ _),
      Nat.add_sub_cancel_left]
    simp [List.getElem?_map, List.getElem?_range, hk]
  refine ⟨hmain, ?_, ?_, ?_, ?_⟩ <;> rw [hmain]
  · rfl
  · rfl
  · show now ≤ now + delay k
    linarith
  · show now + delay k ≤ now + 1
    linarith

/-- Witness for C1's amended theorem: one expired particle, a singleton
root cloud, a delay draw of `1/2`. -/
theorem update_replacements_from_root_witness :
    (update_falling_particles [⟨0, 601, 0, 0, (1, 2, 3), 0, 0, true⟩] 0
        [⟨1, 2, 7, 8, (1, 2, 3)⟩] (fun _ => 0) (fun _ => 1/2)).getD
        (([⟨0, 601, 0, 0, (1, 2, 3), 0, 0, true⟩].filterMap
            (step_particle 0)).length + 0) default =
      Particle.init ((([⟨1, 2, 7, 8, (1, 2, 3)⟩] : List Pos).getD 0
          default).x : ℚ)
        ((([⟨1, 2, 7, 8, (1, 2, 3)⟩] : List Pos).getD 0 default).y : ℚ)
        (([⟨1, 2, 7, 8, (1, 2, 3)⟩] : List Pos).getD 0 default).color
        (([⟨1, 2, 7, 8, (1, 2, 3)⟩] : List Pos).getD 0 default).real_x
        (([⟨1, 2, 7, 8, (1, 2, 3)⟩] : List Pos).getD 0 default).real_y 0
        (1/2) ∧
      ((update_falling_particles [⟨0, 601, 0, 0, (1, 2, 3), 0, 0, true⟩] 0
          [⟨1, 2, 7, 8, (1, 2, 3)⟩] (fun _ => 0) (fun _ => 1/2)).getD
          (([⟨0, 601, 0, 0, (1, 2, 3), 0, 0, true⟩].filterMap
              (step_particle 0)).length + 0) default).velocity = 0 ∧
      ((update_falling_particles [⟨0, 601, 0, 0, (1, 2, 3), 0, 0, true⟩] 0
          [⟨1, 2, 7, 8, (1, 2, 3)⟩] (fun _ => 0) (fun _ => 1/2)).getD
          (([⟨0, 601, 0, 0, (1, 2, 3), 0, 0, true⟩].filterMap
              (step_particle 0)).length + 0) default).active = false ∧
      (0 : ℚ) ≤ ((update_falling_particles
          [⟨0, 601, 0, 0, (1, 2, 3), 0, 0, true⟩] 0
          [⟨1, 2, 7, 8, (1, 2, 3)⟩] (fun _ => 0) (fun _ => 1/2)).getD
          (([⟨0, 601, 0, 0, (1, 2, 3), 0, 0, true⟩].filterMap
              (step_particle 0)).length + 0) default).start_time ∧
      ((update_falling_particles [⟨0, 601, 0, 0, (1, 2, 3), 0, 0, true⟩] 0
          [⟨1, 2, 7, 8, (1, 2, 3)⟩] (fun _ => 0) (fun _ => 1/2)).getD
          (([⟨0, 601, 0, 0, (1, 2, 3), 0, 0, true⟩].filterMap
              (step_particle 0)).length + 0) default).start_time ≤ 0 + 1 :=
  update_replacements_from_root [⟨0, 601, 0, 0, (1, 2, 3), 0, 0, true⟩] 0
    [⟨1, 2, 7, 8, (1, 2, 3)⟩] (fun _ => 0) (fun _ => 1/2) 0
    (by
      have hstep : step_particle 0
          (⟨0, 601, 0, 0, (1, 2, 3), 0, 0, true⟩ : Particle) = none := by
        simp only [step_particle]
        norm_num [GRAVITY, HEIGHT]
      simp [hstep])
    (by norm_num) (by norm_num)

/-- C1 counterexample: the program's update pass sources replacements from
`heart_data_root`, not from the per-frame deformed working copy.  With the
root cloud holding only a point of logical offset 7 and the working copy
holding only a point of logical offset 9, the replacement's offset occurs in
the root cloud and in no point of the working cloud, refuting "randomly
selected from the live working point cloud". -/
theorem update_replacement_not_from_working_cex :
    ((update_falling_particles [⟨0, 601, 0, 0, (1, 2, 3), 0, 0, true⟩] 0
        [⟨1, 2, 7, 8, (1, 2, 3)⟩] (fun _ => 0) (fun _ => 0)).getD 0
        default).real_x ∈
      ([⟨1, 2, 7, 8, (1, 2, 3)⟩] : List Pos).map Pos.real_x ∧
    ((update_falling_particles [⟨0, 601, 0, 0, (1, 2, 3), 0, 0, true⟩] 0
        [⟨1, 2, 7, 8, (1, 2, 3)⟩] (fun _ => 0) (fun _ => 0)).getD 0
        default).real_x ∉
      ([⟨3, 4, 9, 10, (1, 2, 3)⟩] : List Pos).map Pos.real_x := by
  have hstep : step_particle 0
      (⟨0, 601, 0, 0, (1, 2, 3), 0, 0, true⟩ : Particle) = none := by
    simp only [step_particle]
    norm_num [GRAVITY, HEIGHT]
  have hkept : ([(⟨0, 601, 0, 0, (1, 2, 3), 0, 0, true⟩ : Particle)].filterMap
      (step_particle 0)) = [] := by
    simp [hstep]
  constructor <;>
  · simp only [update_falling_particles, hkept]
    norm_num [List.range_succ, Particle.init]

/-- C2 counterexample: at time `pi/4` the scale factor is exactly `1.06`;
for a root offset of `10` with zero jitter the code stores
`int(10 * 1.06) = 10`, while the claimed nearest-integer rounding gives
`round(10.6) = 11`. -/
theorem heart_beat_not_rounding_cex :
    ((heart_beat [⟨0, 0, 10, 0, (1, 2, 3)⟩] [⟨0, 0, 10, 0, (1, 2, 3)⟩]
        (Real.pi / 4) (fun _ => 0) (fun _ => 0)).getD 0 default).real_x =
      10 ∧
    round ((((10 : ℤ) : ℝ)) * scale_factor (Real.pi / 4)) + (0 : ℤ) = 11 := by
  constructor
  · rw [heart_beat_getD _ _ _ _ _ 0 (by simp)]
    show pyInt ((((10 : ℤ) : ℝ)) * scale_factor (Real.pi / 4)) + 0 = 10
    rw [scale_factor_pi_div_four]
    have h : (((10 : ℤ) : ℝ)) * 1.06 = 10.6 := by norm_num
    rw [h]
    unfold pyInt
    rw [if_pos (by norm_num)]
    have h10 : ⌊(10.6 : ℝ)⌋ = (10 : ℤ) := by
      rw [Int.floor_eq_iff]; norm_num
    rw [h10]
    norm_num
  · rw [scale_factor_pi_div_four]
    have h : (((10 : ℤ) : ℝ)) * 1.06 = 10.6 := by norm_num
    rw [h, round_eq]
    have h11 : ⌊(10.6 : ℝ) + 1 / 2⌋ = (11 : ℤ) := by
      rw [Int.floor_eq_iff]; norm_num
    rw [h11]
    norm_num

/-- C2 amended: one heartbeat-deformer call sets each working point's
logical offset to the TRUNCATION TOWARD ZERO (Python `int(...)`, floor for
nonnegative values, ceiling for negative ones) of the root offset times the
scale factor, plus the jitter draw, and recomputes the screen coordinates
from the section-3 invariant. -/
theorem heart_beat_truncates (hd orig : List Pos) (tm : ℝ) (jx jy : ℕ → ℤ)
    (i : ℕ) (hi : i < hd.length) :
    ((heart_beat hd orig tm jx jy).getD i default).real_x =
      (if 0 ≤ ((orig.getD i default).real_x : ℝ) * scale_factor tm then
          ⌊((orig.getD i default).real_x : ℝ) * scale_factor tm⌋
        else ⌈((orig.getD i default).real_x : ℝ) * scale_factor tm⌉) +
        jx i ∧
    ((heart_beat hd orig tm jx jy).getD i default).real_y =
      (if 0 ≤ ((orig.getD i default).real_y : ℝ) * scale_factor tm then
          ⌊((orig.getD i default).real_y : ℝ) * scale_factor tm⌋
        else ⌈((orig.getD i default).real_y : ℝ) * scale_factor tm⌉) +
        jy i ∧
    ((heart_beat hd orig tm jx jy).getD i default).x =
      center_x + ((heart_beat hd orig tm jx jy).getD i default).real_x ∧
    ((heart_beat hd orig tm jx jy).getD i default).y =
      center_y - ((heart_beat hd orig tm jx jy).getD i default).real_y := by
  rw [heart_beat_getD hd orig tm jx jy i hi]
  exact ⟨rfl, rfl, rfl, rfl⟩

/-- Witness for C2's amended theorem on a singleton cloud at time 0. -/
theorem heart_beat_truncates_witness :
    ((heart_beat [⟨0, 0, 10, 0, (1, 2, 3)⟩] [⟨0, 0, 10, 0, (1, 2, 3)⟩] 0
        (fun _ => 0) (fun _ => 0)).getD 0 default).real_x =
      (if 0 ≤ ((([⟨0, 0, 10, 0, (1, 2, 3)⟩] : List Pos).getD 0
            default).real_x : ℝ) * scale_factor 0 then
          ⌊((([⟨0, 0, 10, 0, (1, 2, 3)⟩] : List Pos).getD 0
            default).real_x : ℝ) * scale_factor 0⌋
        else ⌈((([⟨0, 0, 10, 0, (1, 2, 3)⟩] : List Pos).getD 0
            default).real_x : ℝ) * scale_factor 0⌉) + 0 ∧
    ((heart_beat [⟨0, 0, 10, 0, (1, 2, 3)⟩] [⟨0, 0, 10, 0, (1, 2, 3)⟩] 0
        (fun _ => 0) (fun _ => 0)).getD 0 default).real_y =
      (if 0 ≤ ((([⟨0, 0, 10, 0, (1, 2, 3)⟩] : List Pos).getD 0
            default).real_y : ℝ) * scale_factor 0 then
          ⌊((([⟨0, 0, 10, 0, (1, 2, 3)⟩] : List Pos).getD 0
            default).real_y : ℝ) * scale_factor 0⌋
        else ⌈((([⟨0, 0, 10, 0, (1, 2, 3)⟩] : List Pos).getD 0
            default).real_y : ℝ) * scale_factor 0⌉) + 0 ∧
    ((heart_beat [⟨0, 0, 10, 0, (1, 2, 3)⟩] [⟨0, 0, 10, 0, (1, 2, 3)⟩] 0
        (fun _ => 0) (fun _ => 0)).getD 0 default).x =
      center_x + ((heart_beat [⟨0, 0, 10, 0, (1, 2, 3)⟩]
        [⟨0, 0, 10, 0, (1, 2, 3)⟩] 0 (fun _ => 0) (fun _ => 0)).getD 0
        default).real_x ∧
    ((heart_beat [⟨0, 0, 10, 0, (1, 2, 3)⟩] [⟨0, 0, 10, 0, (1, 2, 3)⟩] 0
        (fun _ => 0) (fun _ => 0)).getD 0 default).y =
      center_y - ((heart_beat [⟨0, 0, 10, 0, (1, 2, 3)⟩]
        [⟨0, 0, 10, 0, (1, 2, 3)⟩] 0 (fun _ => 0) (fun _ => 0)).getD 0
        default).real_y :=
  heart_beat_truncates [⟨0, 0, 10, 0, (1, 2, 3)⟩] [⟨0, 0, 10, 0, (1, 2, 3)⟩]
    0 (fun _ => 0) (fun _ => 0) 0 (by simp)

end HeartEffect
